import Mathlib

/-!
Verification of the object model in `src/teaching/vehicle.py`.

The file `vehicle.py` contains two consecutive sets of class definitions.
The first set (`Vehicle`, `Car`, `Bus`, `Convoy`) validates capacity at
construction, trims and validates names in `add`, raises on a full vehicle,
and offers `remove` and `board_group`.  The second set (`Vehicle`, `Car`,
`Bus`, `Fleet`) shadows the first at import time: its `Vehicle` performs no
capacity validation and its `add_passenger` silently declines when full.
We embed the first set under the source names (`Vehicle`, `Car`, `Bus`,
`Convoy`) and the second, shadowing set with a `2` suffix (`Vehicle2`,
`Car2`, `Bus2`) plus `Fleet`.

Python exceptions are modelled with an error type `VError`; methods that can
raise return `Except VError _`, and where the caller observes the mutated
object after an exception (the `board_group` loop) the state is passed
explicitly as a pair of the object and an optional error.  Python
`str.strip()` is modelled by `pyStrip`.  Console output (`print`) is not
modelled except where a claim is about the emitted lines, in which case the
lines are returned as a list of strings.
-/

/-- Python `str.strip()`: drop leading and trailing whitespace.  Defined on
the character list so that proofs and `decide` can evaluate it. -/
def pyStrip (s : String) : String :=
  String.mk (((s.data.dropWhile Char.isWhitespace).reverse.dropWhile
    Char.isWhitespace).reverse)

deriving instance DecidableEq for Except

/-- The error taxonomy of the spec: `ValueError("seats must be a positive
integer")`, `ValueError("name cannot be empty")` and
`RuntimeError("Vehicle is full. No more seats.")` in the source. -/
inductive VError where
  | invalidCapacity
  | invalidName
  | containerFull
deriving DecidableEq, Repr

/-- A Python value passed as the `seats` argument: either an `int` or some
non-integer value (rejected by the `isinstance(seats, int)` guard). -/
inductive PyVal where
  | int (i : Int)
  | nonInt
deriving DecidableEq, Repr

/-- First `Vehicle` class: `seats` and a `passengers` list. -/
structure Vehicle where
  seats : Int
  passengers : List String
deriving DecidableEq, Repr

/-- `Vehicle.__init__` (first definition, lines 27-43): rejects a
non-integer or non-positive `seats` with `ValueError`, and copies the
optional `passengers` iterable into a fresh list (empty when `None`). -/
def Vehicle.init (seats : PyVal) (passengers : Option (List String)) :
    Except VError Vehicle :=
  match seats with
  | .nonInt => .error .invalidCapacity
  | .int i =>
    if i ≤ 0 then .error .invalidCapacity
    else .ok ⟨i, passengers.getD []⟩

/-- `Vehicle.is_full`: `len(self.passengers) >= self.seats`. -/
def Vehicle.is_full (v : Vehicle) : Bool :=
  v.seats ≤ (v.passengers.length : Int)

/-- `Vehicle.available_seats`: `self.seats - len(self.passengers)`. -/
def Vehicle.available_seats (v : Vehicle) : Int :=
  v.seats - (v.passengers.length : Int)

/-- `Vehicle.add`: strips the name, raises `ValueError` on an empty result,
raises `RuntimeError` when full, otherwise appends the stripped name. -/
def Vehicle.add (v : Vehicle) (name : String) : Except VError Vehicle :=
  let name := pyStrip name
  if name = "" then .error .invalidName
  else if v.is_full then .error .containerFull
  else .ok { v with passengers := v.passengers ++ [name] }

/-- `Vehicle.add` with the exception semantics made explicit: the caller of
a raising `add` still holds the unmodified vehicle. -/
def Vehicle.addS (v : Vehicle) (name : String) : Vehicle × Option VError :=
  match v.add name with
  | .ok w => (w, none)
  | .error e => (v, some e)

/-- `Vehicle.remove`: `list.remove` deletes the first exact occurrence and
the surrounding `try/except ValueError` turns absence into `False`. -/
def Vehicle.remove (v : Vehicle) (name : String) : Vehicle × Bool :=
  if name ∈ v.passengers then
    ({ v with passengers := v.passengers.erase name }, true)
  else (v, false)

/-- `Vehicle.describe` (first definition). -/
def Vehicle.describe (v : Vehicle) : String :=
  s!"Vehicle(seats={v.seats}, passengers={v.passengers.length})"

/-- The capacity invariant of the spec: `len(occupants) <= capacity`. -/
def Vehicle.inv (v : Vehicle) : Prop :=
  (v.passengers.length : Int) ≤ v.seats

instance (v : Vehicle) : Decidable v.inv := by
  unfold Vehicle.inv; infer_instance

/-- First `Car` class: a `Vehicle` plus trimmed `brand` and `model`. -/
structure Car extends Vehicle where
  brand : String
  model : String
deriving DecidableEq, Repr

/-- `Car.__init__` (first definition): delegates to `Vehicle.__init__` via
`super()`, then stores the stripped brand and model. -/
def Car.init (seats : PyVal) (brand mdl : String)
    (passengers : Option (List String)) : Except VError Car :=
  match Vehicle.init seats passengers with
  | .error e => .error e
  | .ok v => .ok ⟨v, pyStrip brand, pyStrip mdl⟩

/-- `Car.describe` (first definition, overriding `Vehicle.describe`). -/
def Car.describe (c : Car) : String :=
  s!"Car({c.brand} {c.model}, seats={c.seats}, passengers={c.passengers.length})"

/-- First `Bus` class: a `Vehicle` plus a trimmed `route_number`. -/
structure Bus extends Vehicle where
  route_number : String
deriving DecidableEq, Repr

/-- `Bus.__init__` (first definition): delegates to `Vehicle.__init__`,
then stores the stripped route number. -/
def Bus.init (seats : PyVal) (route : String)
    (passengers : Option (List String)) : Except VError Bus :=
  match Vehicle.init seats passengers with
  | .error e => .error e
  | .ok v => .ok ⟨v, pyStrip route⟩

/-- `Bus.board_group`: calls `Vehicle.add` once per name, in order; an
exception propagates with the already-added names still committed. -/
def Bus.board_group : Bus → List String → Bus × Option VError
  | b, [] => (b, none)
  | b, n :: rest =>
    match b.toVehicle.add n with
    | .error e => (b, some e)
    | .ok v => Bus.board_group { b with toVehicle := v } rest

/-- `Bus.describe` (first definition, overriding `Vehicle.describe`). -/
def Bus.describe (b : Bus) : String :=
  s!"Bus(route={b.route_number}, seats={b.seats}, passengers={b.passengers.length})"

/-- A member of a `Convoy`: a `Vehicle` or any subclass, with `describe`
dispatched on the actual class. -/
inductive AnyVehicle where
  | base (v : Vehicle)
  | car (c : Car)
  | bus (b : Bus)
deriving DecidableEq, Repr

/-- Dynamic dispatch of `describe` on the actual class of the member. -/
def AnyVehicle.describe : AnyVehicle → String
  | .base v => v.describe
  | .car c => c.describe
  | .bus b => b.describe

/-- The `seats` attribute of a convoy member, read through the base class. -/
def AnyVehicle.seats : AnyVehicle → Int
  | .base v => v.seats
  | .car c => c.seats
  | .bus b => b.seats

/-- The `passengers` attribute of a convoy member. -/
def AnyVehicle.passengers : AnyVehicle → List String
  | .base v => v.passengers
  | .car c => c.passengers
  | .bus b => b.passengers

/-- `Convoy`: a name and a list of vehicles (composition). -/
structure Convoy where
  name : String
  vehicles : List AnyVehicle
deriving DecidableEq, Repr

/-- `Convoy.__init__`: stripped name, empty vehicle list. -/
def Convoy.init (name : String) : Convoy := ⟨pyStrip name, []⟩

/-- `Convoy.add_vehicle`: appends a vehicle. -/
def Convoy.add_vehicle (c : Convoy) (v : AnyVehicle) : Convoy :=
  { c with vehicles := c.vehicles ++ [v] }

/-- `Convoy.total_seats`: `sum(v.seats for v in self.vehicles)`. -/
def Convoy.total_seats (c : Convoy) : Int :=
  (c.vehicles.map AnyVehicle.seats).sum

/-- `Convoy.total_passengers`: `sum(len(v.passengers) for ...)`. -/
def Convoy.total_passengers (c : Convoy) : Nat :=
  (c.vehicles.map (fun v => v.passengers.length)).sum

/-- The per-vehicle detail lines printed by `Convoy.print_summary`:
`print(" -", v.describe())` emits `" - "` followed by the dispatched
description, one line per vehicle in order. -/
def Convoy.detailLines (c : Convoy) : List String :=
  c.vehicles.map (fun v => " - " ++ v.describe)

/-- Second `Vehicle` class (the one `main.py` imports): no capacity
validation, no initial passenger argument. -/
structure Vehicle2 where
  seats : Int
  passengers : List String
deriving DecidableEq, Repr

/-- `Vehicle.__init__` (second definition, lines 216-220): stores `seats`
unchecked and starts with an empty passenger list. -/
def Vehicle2.init (seats : Int) : Vehicle2 := ⟨seats, []⟩

/-- `Vehicle.add_passenger` (second definition): when
`len(self.passengers) >= self.seats` it prints "Vehicle is full!" and
returns without appending; otherwise it appends `name` verbatim. -/
def Vehicle2.add_passenger (v : Vehicle2) (name : String) : Vehicle2 :=
  if v.seats ≤ (v.passengers.length : Int) then v
  else { v with passengers := v.passengers ++ [name] }

/-- `Vehicle.describe` (second definition). -/
def Vehicle2.describe (v : Vehicle2) : String :=
  s!"Vehicle: seats={v.seats}, passengers={v.passengers.length}"

/-- Second `Car` class: adds `brand`, stored verbatim. -/
structure Car2 extends Vehicle2 where
  brand : String
deriving DecidableEq, Repr

/-- `Car.__init__` (second definition): `super().__init__(seats)` then
stores `brand`. -/
def Car2.init (seats : Int) (brand : String) : Car2 :=
  ⟨Vehicle2.init seats, brand⟩

/-- `Car.describe` (second definition). -/
def Car2.describe (c : Car2) : String :=
  s!"Car({c.brand}): seats={c.seats}, passengers={c.passengers.length}"

/-- Second `Bus` class: adds `route`, stored verbatim. -/
structure Bus2 extends Vehicle2 where
  route : String
deriving DecidableEq, Repr

/-- `Bus.__init__` (second definition). -/
def Bus2.init (seats : Int) (route : String) : Bus2 :=
  ⟨Vehicle2.init seats, route⟩

/-- `Bus.describe` (second definition). -/
def Bus2.describe (b : Bus2) : String :=
  s!"Bus(route {b.route}): seats={b.seats}, passengers={b.passengers.length}"

/-- A member of a `Fleet` (second family). -/
inductive AnyVehicle2 where
  | base (v : Vehicle2)
  | car (c : Car2)
  | bus (b : Bus2)
deriving DecidableEq, Repr

/-- Dynamic dispatch of the second family's `describe`. -/
def AnyVehicle2.describe : AnyVehicle2 → String
  | .base v => v.describe
  | .car c => c.describe
  | .bus b => b.describe

/-- `Fleet`: a list of vehicles (composition, second family). -/
structure Fleet where
  vehicles : List AnyVehicle2
deriving DecidableEq, Repr

/-- `Fleet.__init__`. -/
def Fleet.init : Fleet := ⟨[]⟩

/-- `Fleet.add_vehicle`: appends a vehicle. -/
def Fleet.add_vehicle (f : Fleet) (v : AnyVehicle2) : Fleet :=
  ⟨f.vehicles ++ [v]⟩

/-- `Fleet.show_all`: prints `v.describe()` for each vehicle in order; the
emitted lines, as a list. -/
def Fleet.show_all (f : Fleet) : List String :=
  f.vehicles.map AnyVehicle2.describe

/-- Iterating `Vehicle.add` over a list of names models a sequence of
consecutive `add` calls on the same object: the loop stops at the first
exception, which the caller observes together with the partially updated
vehicle (same shape as `Bus.board_group`). -/
def Vehicle.addRun : Vehicle → List String → Vehicle × Option VError
  | v, [] => (v, none)
  | v, n :: rest =>
    match v.add n with
    | .error e => (v, some e)
    | .ok w => Vehicle.addRun w rest

/-- Iterating `Vehicle2.add_passenger` (which never raises) over a list of
names models consecutive `add_passenger` calls. -/
def Vehicle2.addRun (v : Vehicle2) (names : List String) : Vehicle2 :=
  names.foldl Vehicle2.add_passenger v

/-! ## Shared lemmas about the operations -/

lemma Vehicle.is_full_iff (v : Vehicle) :
    v.is_full = true ↔ v.seats ≤ (v.passengers.length : Int) := by
  simp [Vehicle.is_full]

lemma Vehicle.add_eq_ok (v : Vehicle) (name : String)
    (h1 : pyStrip name ≠ "") (h2 : (v.passengers.length : Int) < v.seats) :
    v.add name = .ok { v with passengers := v.passengers ++ [pyStrip name] } := by
  simp [Vehicle.add, h1, Vehicle.is_full, not_le.mpr h2]

lemma Vehicle.add_eq_full (v : Vehicle) (name : String)
    (h1 : pyStrip name ≠ "") (h2 : v.seats ≤ (v.passengers.length : Int)) :
    v.add name = .error .containerFull := by
  simp [Vehicle.add, h1, Vehicle.is_full, h2]

lemma Vehicle.add_ok_inv (v w : Vehicle) (name : String)
    (hw : v.add name = .ok w) : w.inv := by
  unfold Vehicle.add at hw
  by_cases h1 : pyStrip name = ""
  · simp [h1] at hw
  · by_cases h2 : v.is_full
    · simp [h1, h2] at hw
    · have hlt : (v.passengers.length : Int) < v.seats :=
        not_le.mp (fun hle => h2 ((v.is_full_iff).mpr hle))
      simp only [h1, if_neg, h2, if_false, ite_false, Bool.false_eq_true] at hw
      cases hw
      simp only [Vehicle.inv, List.length_append, List.length_cons,
        List.length_nil]
      push_cast
      omega

lemma Vehicle.addS_fst_inv (v : Vehicle) (name : String) (h : v.inv) :
    (v.addS name).1.inv := by
  rcases hadd : v.add name with e | w
  · simp [Vehicle.addS, hadd, h]
  · simp only [Vehicle.addS, hadd]
    exact Vehicle.add_ok_inv v w name hadd

lemma Vehicle.remove_fst_inv (v : Vehicle) (name : String) (h : v.inv) :
    (v.remove name).1.inv := by
  unfold Vehicle.remove
  by_cases hm : name ∈ v.passengers
  · simp only [hm, if_pos, Vehicle.inv]
    have := List.length_erase_le name v.passengers
    simp only [Vehicle.inv] at h
    calc ((v.passengers.erase name).length : Int) ≤ v.passengers.length := by
          exact_mod_cast this
      _ ≤ v.seats := h
  · simp [hm, h]

lemma Bus.board_group_fst_inv (names : List String) (b : Bus)
    (h : b.toVehicle.inv) : (b.board_group names).1.toVehicle.inv := by
  induction names generalizing b with
  | nil => exact h
  | cons n rest ih =>
    unfold Bus.board_group
    rcases hadd : b.toVehicle.add n with e | w
    · exact h
    · apply ih
      have : (b.toVehicle.addS n).1 = w := by simp [Vehicle.addS, hadd]
      have h2 := Vehicle.addS_fst_inv b.toVehicle n h
      rwa [this] at h2

lemma Vehicle.addRun_eq_ok (names : List String) (v : Vehicle)
    (h1 : ∀ n ∈ names, pyStrip n ≠ "")
    (h2 : (v.passengers.length : Int) + names.length ≤ v.seats) :
    v.addRun names = ({ v with passengers := v.passengers ++ names.map pyStrip }, none) := by
  induction names generalizing v with
  | nil => simp [Vehicle.addRun]
  | cons n rest ih =>
    have hn : pyStrip n ≠ "" := h1 n (List.mem_cons_self n rest)
    have hlt : (v.passengers.length : Int) < v.seats := by
      simp only [List.length_cons] at h2
      push_cast at h2 ⊢
      omega
    unfold Vehicle.addRun
    rw [Vehicle.add_eq_ok v n hn hlt]
    simp only []
    rw [ih _ (fun m hm => h1 m (List.mem_cons_of_mem n hm))]
    · simp
    · simp only [List.length_append, List.length_cons, List.length_nil] at h2 ⊢
      push_cast at h2 ⊢
      omega

lemma Vehicle2.add_passenger_of_full (v : Vehicle2) (name : String)
    (h : v.seats ≤ (v.passengers.length : Int)) :
    v.add_passenger name = v := by
  simp [Vehicle2.add_passenger, h]

lemma Vehicle2.add_passenger_of_not_full (v : Vehicle2) (name : String)
    (h : (v.passengers.length : Int) < v.seats) :
    v.add_passenger name = { v with passengers := v.passengers ++ [name] } := by
  simp [Vehicle2.add_passenger, not_le.mpr h]

lemma Vehicle2.addRun_eq (names : List String) (v : Vehicle2)
    (h : (v.passengers.length : Int) + names.length ≤ v.seats) :
    v.addRun names = { v with passengers := v.passengers ++ names } := by
  induction names generalizing v with
  | nil => simp [Vehicle2.addRun]
  | cons n rest ih =>
    have hlt : (v.passengers.length : Int) < v.seats := by
      simp only [List.length_cons] at h
      push_cast at h ⊢
      omega
    unfold Vehicle2.addRun
    simp only [List.foldl_cons]
    rw [Vehicle2.add_passenger_of_not_full v n hlt]
    have := ih { v with passengers := v.passengers ++ [n] } (by
      simp only [List.length_append, List.length_cons, List.length_nil] at h ⊢
      push_cast at h ⊢
      omega)
    simpa [Vehicle2.addRun] using this

/-- The capacity invariant for the second family. -/
def Vehicle2.inv (v : Vehicle2) : Prop :=
  (v.passengers.length : Int) ≤ v.seats

instance (v : Vehicle2) : Decidable v.inv := by
  unfold Vehicle2.inv; infer_instance

lemma Vehicle2.add_passenger_inv (v : Vehicle2) (name : String)
    (h : v.inv) : (v.add_passenger name).inv := by
  unfold Vehicle2.add_passenger
  by_cases h2 : v.seats ≤ (v.passengers.length : Int)
  · simp [h2, h]
  · simp only [h2, if_neg, ite_false, if_false, Vehicle2.inv,
      List.length_append, List.length_cons, List.length_nil]
    push_cast
    omega

/-! ## Claims -/

/-- C4 (counterexample): the second `Vehicle` definition — the one the
module finally exports — performs no capacity validation: constructing it
with capacity `0` (or `-3`) succeeds and returns a vehicle, instead of
failing with `InvalidCapacity` as the claim states for every container. -/
theorem c4_counterexample :
    Vehicle2.init 0 = { seats := 0, passengers := [] } ∧
    Vehicle2.init (-3) = { seats := -3, passengers := [] } := by
  constructor <;> rfl

/-- C4 (amended): the first family's constructors (`Vehicle`, `Car`, `Bus`,
all delegating to the first `Vehicle.__init__`) fail with `InvalidCapacity`
on zero, negative or non-integer capacity and succeed on every positive
integer capacity; the second, finally-exported `Vehicle` stores any
capacity unchecked and always constructs successfully. -/
theorem c4_capacity_validation (c s : Int) (ps : Option (List String))
    (brand mdl route : String) :
    (c ≤ 0 → Vehicle.init (.int c) ps = .error .invalidCapacity) ∧
    Vehicle.init .nonInt ps = .error .invalidCapacity ∧
    (0 < c → Vehicle.init (.int c) ps = .ok ⟨c, ps.getD []⟩) ∧
    (c ≤ 0 → Car.init (.int c) brand mdl ps = .error .invalidCapacity) ∧
    (0 < c → Car.init (.int c) brand mdl ps =
      .ok ⟨⟨c, ps.getD []⟩, pyStrip brand, pyStrip mdl⟩) ∧
    (c ≤ 0 → Bus.init (.int c) route ps = .error .invalidCapacity) ∧
    (0 < c → Bus.init (.int c) route ps = .ok ⟨⟨c, ps.getD []⟩, pyStrip route⟩) ∧
    Vehicle2.init s = ⟨s, []⟩ := by
  refine ⟨fun h => ?_, rfl, fun h => ?_, fun h => ?_, fun h => ?_,
    fun h => ?_, fun h => ?_, rfl⟩
  · simp [Vehicle.init, h]
  · simp [Vehicle.init, not_le.mpr h]
  · simp [Car.init, Vehicle.init, h]
  · simp [Car.init, Vehicle.init, not_le.mpr h]
  · simp [Bus.init, Vehicle.init, h]
  · simp [Bus.init, Vehicle.init, not_le.mpr h]

/-- C4 (witness). -/
theorem c4_capacity_validation_witness :
    Vehicle.init (.int 0) none = .error .invalidCapacity ∧
    Vehicle.init (.int 3) none = .ok ⟨3, []⟩ ∧
    Car.init (.int (-2)) "Toyota" "Corolla" none = .error .invalidCapacity ∧
    Bus.init (.int 5) " M29 " none = .ok ⟨⟨5, []⟩, "M29"⟩ := by
  have h0 := c4_capacity_validation 0 0 none "Toyota" "Corolla" " M29 "
  have h3 := c4_capacity_validation 3 0 none "Toyota" "Corolla" " M29 "
  have hm2 := c4_capacity_validation (-2) 0 none "Toyota" "Corolla" " M29 "
  have h5 := c4_capacity_validation 5 0 none "Toyota" "Corolla" " M29 "
  exact ⟨h0.1 (by decide), h3.2.2.1 (by decide),
    hm2.2.2.2.1 (by decide), h5.2.2.2.2.2.2.1 (by decide)⟩

/-- C5: `Vehicle.add` strips its argument before any other check: on
every vehicle — full or not — `add("")` and `add("   ")` fail with
`InvalidName` (never `ContainerFull`, since the name check precedes the
capacity check) and leave the vehicle unchanged, while `add("  Alice  ")`
on a non-full vehicle stores exactly `"Alice"`. -/
theorem c5_add_strips_and_validates (v : Vehicle) :
    v.addS "" = (v, some .invalidName) ∧
    v.addS "   " = (v, some .invalidName) ∧
    ((v.passengers.length : Int) < v.seats →
      v.add "  Alice  " = .ok { v with passengers := v.passengers ++ ["Alice"] }) := by
  refine ⟨?_, ?_, fun hroom => ?_⟩
  · simp [Vehicle.addS, Vehicle.add, pyStrip]
  · simp [Vehicle.addS, Vehicle.add]
    rfl
  · have h := Vehicle.add_eq_ok v "  Alice  " (by decide) hroom
    simpa using h

/-- C5 (witness): the empty-name cases are exercised on a *full* vehicle,
showing `InvalidName` takes precedence over `ContainerFull`; the storing
case on a non-full one. -/
theorem c5_add_strips_and_validates_witness :
    Vehicle.addS ⟨1, ["Bob"]⟩ "" = (⟨1, ["Bob"]⟩, some .invalidName) ∧
    Vehicle.addS ⟨1, ["Bob"]⟩ "   " = (⟨1, ["Bob"]⟩, some .invalidName) ∧
    Vehicle.add ⟨2, ["Bob"]⟩ "  Alice  " = .ok ⟨2, ["Bob", "Alice"]⟩ :=
  ⟨(c5_add_strips_and_validates ⟨1, ["Bob"]⟩).1,
   (c5_add_strips_and_validates ⟨1, ["Bob"]⟩).2.1,
   (c5_add_strips_and_validates ⟨2, ["Bob"]⟩).2.2 (by decide)⟩

/-- C6: `Vehicle.remove` removes exactly the first occurrence of an exact,
case-sensitive match and returns `true`; on a missing name it returns
`false` and leaves the vehicle unchanged.  The decomposition form shows at
most one occurrence is removed and the order of the rest is preserved. -/
theorem c6_remove_first_occurrence (v : Vehicle) (name : String) :
    (∀ l₁ l₂, v.passengers = l₁ ++ name :: l₂ → name ∉ l₁ →
      v.remove name = ({ v with passengers := l₁ ++ l₂ }, true)) ∧
    (name ∉ v.passengers → v.remove name = (v, false)) := by
  constructor
  · intro l₁ l₂ hsplit hnot
    have hmem : name ∈ v.passengers := by
      rw [hsplit]; exact List.mem_append_right l₁ (List.mem_cons_self name l₂)
    unfold Vehicle.remove
    rw [if_pos hmem]
    have herase : v.passengers.erase name = l₁ ++ l₂ := by
      rw [hsplit, List.erase_append_right _ hnot, List.erase_cons_head]
    rw [herase]
  · intro hnot
    simp [Vehicle.remove, hnot]

/-- C6 (witness): with duplicates, only the first `"Alice"` is removed and
order is preserved; a missing name is a no-op returning `false`. -/
theorem c6_remove_first_occurrence_witness :
    Vehicle.remove ⟨4, ["Bob", "Alice", "Carol", "Alice"]⟩ "Alice" =
      (⟨4, ["Bob", "Carol", "Alice"]⟩, true) ∧
    Vehicle.remove ⟨4, ["Bob"]⟩ "Alice" = (⟨4, ["Bob"]⟩, false) :=
  ⟨(c6_remove_first_occurrence ⟨4, ["Bob", "Alice", "Carol", "Alice"]⟩ "Alice").1
      ["Bob"] ["Carol", "Alice"] rfl (by decide),
   (c6_remove_first_occurrence ⟨4, ["Bob"]⟩ "Alice").2 (by decide)⟩

/-- C9: the finally-exported `Vehicle.add_passenger` never raises: on a
full vehicle it returns with the passenger list exactly unchanged (silent
decline), on a non-full vehicle it appends the name verbatim (no
stripping, no validation). -/
theorem c9_add_passenger_silent_policy (v : Vehicle2) (name : String) :
    (v.seats ≤ (v.passengers.length : Int) → v.add_passenger name = v) ∧
    ((v.passengers.length : Int) < v.seats →
      v.add_passenger name = { v with passengers := v.passengers ++ [name] }) :=
  ⟨fun h => Vehicle2.add_passenger_of_full v name h,
   fun h => Vehicle2.add_passenger_of_not_full v name h⟩

/-- C9 (witness): the exact scenario of
`test_vehicle_full_prints_message_and_does_not_add`, plus an append of an
untrimmed name. -/
theorem c9_add_passenger_silent_policy_witness :
    Vehicle2.add_passenger ⟨1, ["Alice"]⟩ "Bob" = ⟨1, ["Alice"]⟩ ∧
    Vehicle2.add_passenger ⟨2, []⟩ "  Alice  " = ⟨2, ["  Alice  "]⟩ :=
  ⟨(c9_add_passenger_silent_policy ⟨1, ["Alice"]⟩ "Bob").1 (by decide),
   (c9_add_passenger_silent_policy ⟨2, []⟩ "  Alice  ").2 (by decide)⟩

/-- C1 (counterexample): the first `Vehicle.__init__` never checks the
initial passenger list against the capacity, so a vehicle with capacity 1
and two initial passengers is constructed successfully and violates
`len(occupants) <= capacity` immediately after construction. -/
theorem c1_counterexample :
    Vehicle.init (.int 1) (some ["Ann", "Ben"]) =
      .ok { seats := 1, passengers := ["Ann", "Ben"] } ∧
    ¬ Vehicle.inv { seats := 1, passengers := ["Ann", "Ben"] } := by
  constructor
  · rfl
  · decide

/-- C1 (amended): the capacity invariant is preserved by every mutating
operation (`add` under both exception and success outcome, `remove`,
`board_group`, and the second family's `add_passenger`), and construction
establishes it when the initial occupant sequence is no longer than the
capacity (in particular when it is omitted); construction with a longer
initial sequence succeeds without establishing it. -/
theorem c1_capacity_invariant (v : Vehicle) (b : Bus) (v2 : Vehicle2)
    (name : String) (names : List String) (c : Int) (ps : Option (List String))
    (hv : v.inv) (hb : b.toVehicle.inv) (hv2 : v2.inv) :
    (v.addS name).1.inv ∧
    (v.remove name).1.inv ∧
    (b.board_group names).1.toVehicle.inv ∧
    (0 < c → ((ps.getD []).length : Int) ≤ c →
      Vehicle.init (.int c) ps = .ok ⟨c, ps.getD []⟩ ∧
      Vehicle.inv ⟨c, ps.getD []⟩) ∧
    (v2.add_passenger name).inv :=
  ⟨Vehicle.addS_fst_inv v name hv,
   Vehicle.remove_fst_inv v name hv,
   Bus.board_group_fst_inv names b hb,
   fun hc hlen => ⟨by simp [Vehicle.init, not_le.mpr hc], hlen⟩,
   Vehicle2.add_passenger_inv v2 name hv2⟩

/-- C1 (witness). -/
theorem c1_capacity_invariant_witness :
    (Vehicle.addS ⟨2, ["Ann"]⟩ "Bob").1.inv ∧
    (Vehicle.remove ⟨2, ["Ann"]⟩ "Ann").1.inv ∧
    (Bus.board_group ⟨⟨2, []⟩, "M29"⟩ ["Ann", "Bob", "Cal"]).1.toVehicle.inv ∧
    (Vehicle.init (.int 2) (some ["Ann"]) = .ok ⟨2, ["Ann"]⟩ ∧
      Vehicle.inv ⟨2, ["Ann"]⟩) ∧
    (Vehicle2.add_passenger ⟨1, ["Ann"]⟩ "Bob").inv := by
  have h := c1_capacity_invariant ⟨2, ["Ann"]⟩ ⟨⟨2, []⟩, "M29"⟩ ⟨1, ["Ann"]⟩
    "Bob" ["Ann", "Bob", "Cal"] 2 (some ["Ann"]) (by decide) (by decide) (by decide)
  refine ⟨?_, ?_, h.2.2.1, h.2.2.2.1 (by decide) (by decide), h.2.2.2.2⟩
  · have h2 := c1_capacity_invariant ⟨2, ["Ann"]⟩ ⟨⟨2, []⟩, "M29"⟩ ⟨1, ["Ann"]⟩
      "Bob" [] 2 none (by decide) (by decide) (by decide)
    exact h2.1
  · have h3 := c1_capacity_invariant ⟨2, ["Ann"]⟩ ⟨⟨2, []⟩, "M29"⟩ ⟨1, ["Ann"]⟩
      "Ann" [] 2 none (by decide) (by decide) (by decide)
    exact h3.2.1

/-- C2: starting from a vehicle constructed empty with positive capacity
`c`, `c` consecutive `add` calls on valid names all succeed — after the
first `k` calls the passenger list is exactly the first `k` stripped
names, so each call grows the count by one — and the `(c+1)`-th call
raises `ContainerFull`, leaving the vehicle unchanged.  Under the second
family's silent policy the same `c` calls all append and the `(c+1)`-th
returns with the count still `c`. -/
theorem c2_fill_to_capacity (c : Nat) (names : List String) (extra : String)
    (hc : 0 < c) (hlen : names.length = c)
    (hvalid : ∀ n ∈ names, pyStrip n ≠ "") (hextra : pyStrip extra ≠ "") :
    Vehicle.init (.int c) none = .ok ⟨(c : Int), []⟩ ∧
    (∀ k, k ≤ c →
      Vehicle.addRun ⟨(c : Int), []⟩ (names.take k) =
        (⟨(c : Int), (names.take k).map pyStrip⟩, none)) ∧
    Vehicle.addS ⟨(c : Int), names.map pyStrip⟩ extra =
      (⟨(c : Int), names.map pyStrip⟩, some .containerFull) ∧
    Vehicle2.addRun ⟨(c : Int), []⟩ names = ⟨(c : Int), names⟩ ∧
    Vehicle2.add_passenger ⟨(c : Int), names⟩ extra = ⟨(c : Int), names⟩ := by
  have hcc : ¬ ((c : Int) ≤ 0) := by exact_mod_cast not_le.mpr hc
  refine ⟨by simp [Vehicle.init, hcc], fun k hk => ?_, ?_, ?_, ?_⟩
  · have h := Vehicle.addRun_eq_ok (names.take k) ⟨(c : Int), []⟩
      (fun m hm => hvalid m (List.mem_of_mem_take hm))
      (by
        have htake : (names.take k).length = min k c := by
          simp [List.length_take, hlen]
        simp only [htake, List.length_nil]
        push_cast
        omega)
    simpa using h
  · have hfull : ((c : Int) : Int) ≤ ((names.map pyStrip).length : Int) := by
      simp [hlen]
    have h := Vehicle.add_eq_full ⟨(c : Int), names.map pyStrip⟩ extra hextra hfull
    simp [Vehicle.addS, h]
  · have h := Vehicle2.addRun_eq names ⟨(c : Int), []⟩ (by simp [hlen])
    simpa using h
  · exact Vehicle2.add_passenger_of_full ⟨(c : Int), names⟩ extra (by simp [hlen])

/-- C2 (witness): capacity 2, two valid names fill the vehicle, the third
add raises `ContainerFull` (first family) or silently declines (second). -/
theorem c2_fill_to_capacity_witness :
    Vehicle.addRun ⟨2, []⟩ ["Alice", " Bob "] = (⟨2, ["Alice", "Bob"]⟩, none) ∧
    Vehicle.addS ⟨2, ["Alice", "Bob"]⟩ "Eve" =
      (⟨2, ["Alice", "Bob"]⟩, some .containerFull) ∧
    Vehicle2.addRun ⟨2, []⟩ ["Alice", " Bob "] = ⟨2, ["Alice", " Bob "]⟩ ∧
    Vehicle2.add_passenger ⟨2, ["Alice", " Bob "]⟩ "Eve" = ⟨2, ["Alice", " Bob "]⟩ := by
  have h := c2_fill_to_capacity 2 ["Alice", " Bob "] "Eve" (by decide) (by decide)
    (by decide) (by decide)
  exact ⟨h.2.1 2 (by decide), h.2.2.1, h.2.2.2.1, h.2.2.2.2⟩

/-- C3: `Bus.board_group` calls `add` once per name in order; with `r`
seats remaining and more than `r` valid names supplied, exactly the first
`r` names are added (stripped, in order) and stay committed, and the
operation then raises `ContainerFull` with no rollback. -/
theorem c3_board_group_partial (b : Bus) (names : List String) (r : Nat)
    (hvalid : ∀ n ∈ names, pyStrip n ≠ "")
    (hrem : (b.toVehicle.passengers.length : Int) + r = b.toVehicle.seats)
    (hlt : r < names.length) :
    b.board_group names =
      ({ b with toVehicle := { b.toVehicle with
          passengers := b.toVehicle.passengers ++ (names.take r).map pyStrip } },
        some .containerFull) := by
  induction r generalizing b names with
  | zero =>
    cases names with
    | nil => simp at hlt
    | cons n rest =>
      have hn : pyStrip n ≠ "" := hvalid n (List.mem_cons_self n rest)
      have hfull : b.toVehicle.seats ≤ (b.toVehicle.passengers.length : Int) := by
        push_cast at hrem ⊢
        omega
      unfold Bus.board_group
      rw [Vehicle.add_eq_full _ n hn hfull]
      simp
  | succ r ih =>
    cases names with
    | nil => simp at hlt
    | cons n rest =>
      have hn : pyStrip n ≠ "" := hvalid n (List.mem_cons_self n rest)
      have hlt2 : (b.toVehicle.passengers.length : Int) < b.toVehicle.seats := by
        push_cast at hrem ⊢
        omega
      unfold Bus.board_group
      rw [Vehicle.add_eq_ok _ n hn hlt2]
      simp only []
      rw [ih { b with toVehicle := { b.toVehicle with
            passengers := b.toVehicle.passengers ++ [pyStrip n] } } rest
          (fun m hm => hvalid m (List.mem_cons_of_mem n hm))
          (by
            simp only [List.length_append, List.length_cons, List.length_nil]
            push_cast at hrem ⊢
            omega)
          (by
            simp only [List.length_cons] at hlt
            omega)]
      simp [List.append_assoc]

/-- C3 (witness): route "M29", capacity 2, three names: the first two are
boarded and committed, then `ContainerFull` is raised. -/
theorem c3_board_group_partial_witness :
    Bus.board_group ⟨⟨2, []⟩, "M29"⟩ [" Ann ", "Bob", "Cal"] =
      (⟨⟨2, ["Ann", "Bob"]⟩, "M29"⟩, some .containerFull) := by
  have h := c3_board_group_partial ⟨⟨2, []⟩, "M29"⟩ [" Ann ", "Bob", "Cal"] 2
    (by decide) (by decide) (by decide)
  simpa using h

/-- C7: the aggregate scenario.  A convoy with a base vehicle of capacity
2, a car of capacity 4 and a bus of capacity 5, each holding one passenger
added through `add`, reports `total_seats = 11` and `total_passengers = 3`,
and its summary's per-vehicle detail lines are exactly 3, in insertion
order, each rendered by the overriding `describe` of the member's actual
class; `Fleet.show_all` of the second family behaves the same way. -/
theorem c7_aggregate_scenario :
    (let v : Vehicle := (Vehicle.addS ⟨2, []⟩ "Pam").1
     let c : Car := ⟨(Vehicle.addS ⟨4, []⟩ "Quinn").1, "Toyota", "Corolla"⟩
     let b : Bus := ⟨(Vehicle.addS ⟨5, []⟩ "Ray").1, "M29"⟩
     let conv := (((Convoy.init "demo").add_vehicle (.base v)).add_vehicle
       (.car c)).add_vehicle (.bus b)
     conv.total_seats = 11 ∧ conv.total_passengers = 3 ∧
     conv.detailLines =
       [" - " ++ v.describe, " - " ++ c.describe, " - " ++ b.describe] ∧
     conv.detailLines =
       [" - Vehicle(seats=2, passengers=1)",
        " - Car(Toyota Corolla, seats=4, passengers=1)",
        " - Bus(route=M29, seats=5, passengers=1)"]) ∧
    Fleet.show_all ⟨[.base ⟨2, ["Pam"]⟩, .car ⟨⟨4, ["Quinn"]⟩, "Toyota"⟩,
        .bus ⟨⟨5, ["Ray"]⟩, "M29"⟩]⟩ =
      ["Vehicle: seats=2, passengers=1",
       "Car(Toyota): seats=4, passengers=1",
       "Bus(route M29): seats=5, passengers=1"] := by
  constructor
  · refine ⟨by decide, by decide, by decide, by decide⟩
  · decide

/-- C8 (counterexample): the constructor stores initial occupants without
stripping, so a vehicle can hold the whitespace-only name `"   "`;
removing it succeeds, but re-adding the same name raises `InvalidName`
after stripping, so the occupant count is 0 instead of being restored to
1 — the remove-then-add round trip does not restore the count for every
held name. -/
theorem c8_counterexample :
    Vehicle.remove ⟨2, ["   "]⟩ "   " = (⟨2, []⟩, true) ∧
    Vehicle.addS ⟨2, []⟩ "   " = (⟨2, []⟩, some .invalidName) := by
  constructor
  · decide
  · rfl

/-- C8 (amended): for a vehicle satisfying the capacity invariant and
holding an occupant `n` that is non-empty and already stripped (as every
name stored through `add` is), removing `n` and re-adding it succeeds,
appends `n` at the end rather than at its original position, restores the
occupant count, and preserves the multiset of occupants. -/
theorem c8_remove_then_add (v : Vehicle) (n : String)
    (hinv : v.inv) (hmem : n ∈ v.passengers)
    (htrim : pyStrip n = n) (hne : n ≠ "") :
    (v.remove n).2 = true ∧
    (v.remove n).1.add n = .ok { v with passengers := v.passengers.erase n ++ [n] } ∧
    (v.passengers.erase n ++ [n]).length = v.passengers.length ∧
    (v.passengers.erase n ++ [n]).Perm v.passengers := by
  have hremove : v.remove n = ({ v with passengers := v.passengers.erase n }, true) := by
    simp [Vehicle.remove, hmem]
  have hlen : (v.passengers.erase n).length = v.passengers.length - 1 :=
    List.length_erase_of_mem hmem
  have hpos : 0 < v.passengers.length := List.length_pos.mpr
    (List.ne_nil_of_mem hmem)
  have hlt : (((v.passengers.erase n).length : Int)) < v.seats := by
    simp only [Vehicle.inv] at hinv
    rw [hlen]
    push_cast [hpos]
    omega
  refine ⟨by rw [hremove], ?_, ?_, ?_⟩
  · rw [hremove]
    have hadd := Vehicle.add_eq_ok { v with passengers := v.passengers.erase n } n
      (by rw [htrim]; exact hne) hlt
    rw [hadd, htrim]
  · simp only [List.length_append, List.length_cons, List.length_nil, hlen]
    omega
  · exact (List.perm_append_comm).trans (List.perm_cons_erase hmem).symm

/-- C8 (witness). -/
theorem c8_remove_then_add_witness :
    (Vehicle.remove ⟨2, ["Alice", "Bob"]⟩ "Alice").2 = true ∧
    (Vehicle.remove ⟨2, ["Alice", "Bob"]⟩ "Alice").1.add "Alice" =
      .ok ⟨2, ["Bob", "Alice"]⟩ ∧
    (["Bob", "Alice"] : List String).length = (["Alice", "Bob"] : List String).length ∧
    (["Bob", "Alice"] : List String).Perm ["Alice", "Bob"] := by
  have h := c8_remove_then_add ⟨2, ["Alice", "Bob"]⟩ "Alice"
    (by decide) (by decide) (by decide) (by decide)
  simpa using h

/-- C10 (counterexample): on a non-full vehicle that already happens to
hold the raw string `"  Alice  "` (possible through the unchecked
constructor), `add("  Alice  ")` stores the stripped `"Alice"`, yet
`remove("  Alice  ")` afterwards returns `true` — it deletes the raw
stored copy — contrary to the claim that it returns `false` for every
non-full vehicle. -/
theorem c10_counterexample :
    Vehicle.is_full ⟨2, ["  Alice  "]⟩ = false ∧
    Vehicle.add ⟨2, ["  Alice  "]⟩ "  Alice  " =
      .ok ⟨2, ["  Alice  ", "Alice"]⟩ ∧
    Vehicle.remove ⟨2, ["  Alice  ", "Alice"]⟩ "  Alice  " =
      (⟨2, ["Alice"]⟩, true) := by
  decide

/-- C10 (amended): `add` strips its argument before storing but `remove`
matches the raw argument exactly; on any non-full vehicle that does not
already hold the raw string `"  Alice  "`, after `add("  Alice  ")` the
stored name is `"Alice"`, `remove("  Alice  ")` returns `false` leaving
the list unchanged, and `remove("Alice")` returns `true`. -/
theorem c10_strip_asymmetry (v : Vehicle)
    (hroom : (v.passengers.length : Int) < v.seats)
    (hni : "  Alice  " ∉ v.passengers) :
    v.add "  Alice  " = .ok { v with passengers := v.passengers ++ ["Alice"] } ∧
    Vehicle.remove { v with passengers := v.passengers ++ ["Alice"] } "  Alice  " =
      ({ v with passengers := v.passengers ++ ["Alice"] }, false) ∧
    (Vehicle.remove { v with passengers := v.passengers ++ ["Alice"] } "Alice").2 = true := by
  have hne : "  Alice  " ∉ v.passengers ++ ["Alice"] := by
    intro hmem
    rcases List.mem_append.mp hmem with h | h
    · exact hni h
    · simp at h
  refine ⟨?_, ?_, ?_⟩
  · have h := Vehicle.add_eq_ok v "  Alice  " (by decide) hroom
    simpa using h
  · simp [Vehicle.remove, hne]
  · have hmem : "Alice" ∈ v.passengers ++ ["Alice"] :=
      List.mem_append_right _ (List.mem_singleton.mpr rfl)
    simp [Vehicle.remove, hmem]

/-- C10 (witness). -/
theorem c10_strip_asymmetry_witness :
    Vehicle.add ⟨2, ["Bob"]⟩ "  Alice  " = .ok ⟨2, ["Bob", "Alice"]⟩ ∧
    Vehicle.remove ⟨2, ["Bob", "Alice"]⟩ "  Alice  " =
      (⟨2, ["Bob", "Alice"]⟩, false) ∧
    (Vehicle.remove ⟨2, ["Bob", "Alice"]⟩ "Alice").2 = true := by
  have h := c10_strip_asymmetry ⟨2, ["Bob"]⟩ (by decide) (by decide)
  simpa using h
